import Mathlib

/-!
Verification development for the ABA Behavior Tracker progressive web app.

The definitions below are a shallow embedding of the TypeScript sources:

* src/types/index.ts — the persisted record shapes and enumerations;
* src/lib/db.ts — the IndexedDB wrapper (schema creation and the generic
  add / update (put) / get / getAll / delete accessors);
* src/lib/profiles.ts — profile management, backup export and import;
* src/lib/analytics.ts — behavior analytics and milestone detection;
* src/lib/pdf-import.ts — severity mapping and extracted-entry validation;
* src/lib/multimodal-conversation.ts (and the identical logic in
  src/lib/voice-conversation.ts) — the conversation-extraction entry builder;
* src/components/PDFImport.tsx — the multi-file PDF processing loop;
* src/pages/reinforcers.tsx — reinforcer creation and the "use" action;
* src/pages/behaviors/new.tsx — the entry form and its severity select.

Modelling conventions, used throughout:

* Calendar dates ('YYYY-MM-DD' strings in the sources) are represented by the
  day number they denote (a Nat ordered like the dates); times of day by the
  hour component that the analytics code parses out of the 'HH:MM' string.
* JavaScript numbers holding integers are Int; the exact rational arithmetic
  of averages is ℚ (JavaScript doubles are exact on these small values).
* A field that may be undefined or null is an Option; the JavaScript
  "x || d" default (which also replaces 0 and the empty string) is made
  explicit by the jsOr* helpers.
* Promise-returning database operations are Except String valued: a rejected
  promise is an .error carrying the DOMException name or the thrown message.
* JavaScript objects used as dictionaries are association lists in key
  insertion order.
-/

namespace ABA

/-! ## src/types/index.ts -/

/-- Enumeration BehaviorFunction from src/types/index.ts. -/
inductive BehaviorFunction
  | escape
  | attention
  | tangible
  | sensory
deriving DecidableEq, Repr

/-- Enumeration SeverityLevel from src/types/index.ts; its numeric values
are given by SeverityLevel.val. -/
inductive SeverityLevel
  | mild
  | moderate
  | significant
  | severe
  | critical
deriving DecidableEq, Repr

/-- Numeric value of each SeverityLevel member (MILD = 1 .. CRITICAL = 5). -/
def SeverityLevel.val : SeverityLevel → Int
  | .mild => 1
  | .moderate => 2
  | .significant => 3
  | .severe => 4
  | .critical => 5

/-- Enumeration ReinforcerType from src/types/index.ts. -/
inductive ReinforcerType
  | edible
  | tangible
  | activity
  | social
deriving DecidableEq, Repr

/-- Interface BehaviorEntry from src/types/index.ts. Dates are day numbers,
time is the hour component; see the module conventions. -/
structure BehaviorEntry where
  id : String
  date : Nat
  time : Nat
  antecedent : String
  behavior : String
  consequence : String
  severity : Int
  function : BehaviorFunction
  duration : Option Int
  intensity : Option Int
  location : Option String
  notes : Option String
  createdBy : Option String
  createdAt : String
  updatedAt : String
deriving DecidableEq, Repr

/-- Interface Reinforcer from src/types/index.ts. -/
structure Reinforcer where
  id : String
  name : String
  type : ReinforcerType
  lastUsed : Option String
  usageCount : Int
  effectiveness : Int
  avoidRepetitionDays : Option Int
  notes : Option String
  createdAt : String
  updatedAt : String
deriving DecidableEq, Repr

/-- Union type of Milestone.type from src/types/index.ts. -/
inductive MilestoneType
  | improvement
  | regression
  | neutral
deriving DecidableEq, Repr

/-- Interface Milestone from src/types/index.ts. The date field holds the
group key (the source formats it as a date string); the human-readable
description string built alongside it in the source is presentation text and
is not modelled. -/
structure Milestone where
  id : String
  date : Nat
  type : MilestoneType
  metric : String
  value : ℚ
  confidence : ℚ
deriving DecidableEq, Repr

/-! ## JavaScript helpers

The "a || b" default pattern of the sources, written out for each type it is
applied to: it falls back to the default on undefined/null, on the empty
string and on the number 0 (the falsy values that occur here). -/

/-- JavaScript "s || d" for an optional string value. -/
def jsOrStr (v : Option String) (d : String) : String :=
  match v with
  | some s => if s == "" then d else s
  | none => d

/-- JavaScript "n || d" for an optional number value. -/
def jsOrInt (v : Option Int) (d : Int) : Int :=
  match v with
  | some n => if n == 0 then d else n
  | none => d

/-- JavaScript "n || d" for an optional day-number or hour value. -/
def jsOrNat (v : Option Nat) (d : Nat) : Nat :=
  match v with
  | some n => if n == 0 then d else n
  | none => d

/-- JavaScript "n || undefined" for an optional number value. -/
def jsOrUndefInt (v : Option Int) : Option Int :=
  match v with
  | some n => if n == 0 then none else some n
  | none => none

/-- JavaScript "s || undefined" for an optional string value. -/
def jsOrUndefStr (v : Option String) : Option String :=
  match v with
  | some s => if s == "" then none else some s
  | none => none

/-! ## src/lib/db.ts -/

def DB_NAME : String := "ABATrackerDB"

def DB_VERSION : Nat := 1

/-- An index created by createIndex(name, keyPath, options). -/
structure StoreIndex where
  name : String
  keyPath : String
  unique : Bool
deriving DecidableEq, Repr

/-- An object store created by createObjectStore(name, storeOptions),
together with the indexes created on it. -/
structure ObjectStoreSchema where
  name : String
  keyPath : String
  indexes : List StoreIndex
deriving DecidableEq, Repr

/-- store.createIndex(name, keyPath, storeOptions with a unique flag). -/
def createIndex (s : ObjectStoreSchema) (n kp : String) (uniq : Bool) : ObjectStoreSchema :=
  { s with indexes := s.indexes ++ [⟨n, kp, uniq⟩] }

/-- The onupgradeneeded handler of Database.init in src/lib/db.ts: for each
of the three stores, if db.objectStoreNames does not contain it, create it
with keyPath 'id' and create its indexes (all with unique false). -/
def upgradeNeeded (stores : List ObjectStoreSchema) : List ObjectStoreSchema :=
  let stores :=
    if stores.any (fun s => s.name == "behaviors") then stores
    else
      let behaviorStore : ObjectStoreSchema := ⟨"behaviors", "id", []⟩
      let behaviorStore := createIndex behaviorStore "date" "date" false
      let behaviorStore := createIndex behaviorStore "severity" "severity" false
      let behaviorStore := createIndex behaviorStore "function" "function" false
      stores ++ [behaviorStore]
  let stores :=
    if stores.any (fun s => s.name == "reinforcers") then stores
    else
      let reinforcerStore : ObjectStoreSchema := ⟨"reinforcers", "id", []⟩
      let reinforcerStore := createIndex reinforcerStore "type" "type" false
      let reinforcerStore := createIndex reinforcerStore "lastUsed" "lastUsed" false
      stores ++ [reinforcerStore]
  let stores :=
    if stores.any (fun s => s.name == "crisisProtocols") then stores
    else
      let crisisStore : ObjectStoreSchema := ⟨"crisisProtocols", "id", []⟩
      let crisisStore := createIndex crisisStore "isActive" "isActive" false
      stores ++ [crisisStore]
  stores

/-- A record held in one of the object stores, viewed generically: id is the
keyPath field; isActive is the flag the profile logic reads; payload stands
for the record's remaining fields, which the database code never inspects. -/
structure StoredRec where
  id : String
  isActive : Bool
  payload : Nat
deriving DecidableEq, Repr

/-- The data held by the ABATrackerDB database: the three object stores that
Database.init creates (src/lib/db.ts lines 28-57). There is no profiles
store: the upgrade handler never creates one. -/
structure IDB where
  behaviors : List StoredRec
  reinforcers : List StoredRec
  crisisProtocols : List StoredRec
deriving DecidableEq, Repr

/-- The STORES constant of src/lib/db.ts. Each member is the store-name
string; the object has only the three members below, so the reference
STORES.PROFILES made by src/lib/profiles.ts reads an absent property and
yields undefined — modelled as none. -/
def STORES_BEHAVIORS : Option String := some "behaviors"

def STORES_REINFORCERS : Option String := some "reinforcers"

def STORES_CRISIS_PROTOCOLS : Option String := some "crisisProtocols"

/-- STORES.PROFILES: not a member of the STORES object in src/lib/db.ts. -/
def STORES_PROFILES : Option String := none

/-- db.transaction(storeName, mode).objectStore(storeName): yields the store
contents when storeName names one of the created object stores, none
otherwise (the transaction call throws DOMException NotFoundError, which the
promise wrappers surface as a rejection). An undefined store name is not the
name of any store. -/
def IDB.objectStore? (db : IDB) (storeName : Option String) : Option (List StoredRec) :=
  match storeName with
  | none => none
  | some n =>
    if n == "behaviors" then some db.behaviors
    else if n == "reinforcers" then some db.reinforcers
    else if n == "crisisProtocols" then some db.crisisProtocols
    else none

/-- Writes back the contents of the named store (no-op on a name that
resolves to no store; such a write is never reached). -/
def IDB.setStore (db : IDB) (storeName : Option String) (recs : List StoredRec) : IDB :=
  match storeName with
  | none => db
  | some n =>
    if n == "behaviors" then { db with behaviors := recs }
    else if n == "reinforcers" then { db with reinforcers := recs }
    else if n == "crisisProtocols" then { db with crisisProtocols := recs }
    else db

/-- Database.add: store.add(item) rejects with ConstraintError when a record
with the same key already exists. -/
def dbAdd (db : IDB) (storeName : Option String) (item : StoredRec) : Except String IDB :=
  match db.objectStore? storeName with
  | none => .error "NotFoundError"
  | some recs =>
    if recs.any (fun r => r.id == item.id) then .error "ConstraintError"
    else .ok (db.setStore storeName (recs ++ [item]))

/-- Database.update: store.put(item) replaces the record with the same key,
or inserts the item when no record has its key. -/
def dbUpdate (db : IDB) (storeName : Option String) (item : StoredRec) : Except String IDB :=
  match db.objectStore? storeName with
  | none => .error "NotFoundError"
  | some recs =>
    if recs.any (fun r => r.id == item.id) then
      .ok (db.setStore storeName (recs.map fun r => if r.id == item.id then item else r))
    else .ok (db.setStore storeName (recs ++ [item]))

/-- Database.get: store.get(id), undefined (none) when no record matches. -/
def dbGet (db : IDB) (storeName : Option String) (id : String) :
    Except String (Option StoredRec) :=
  match db.objectStore? storeName with
  | none => .error "NotFoundError"
  | some recs => .ok (recs.find? (fun r => r.id == id))

/-- Database.getAll: store.getAll(). -/
def dbGetAll (db : IDB) (storeName : Option String) : Except String (List StoredRec) :=
  match db.objectStore? storeName with
  | none => .error "NotFoundError"
  | some recs => .ok recs

/-- Database.delete: store.delete(id). -/
def dbDelete (db : IDB) (storeName : Option String) (id : String) : Except String IDB :=
  match db.objectStore? storeName with
  | none => .error "NotFoundError"
  | some recs => .ok (db.setStore storeName (recs.filter fun r => r.id != id))

/-- The database contents right after the first Database.init: the three
stores exist and are empty. -/
def initIDB : IDB := ⟨[], [], []⟩

/-! ## src/lib/profiles.ts -/

/-- createProfile (src/lib/profiles.ts lines 44-62): builds the profile
record (id, name, type, color, isActive true, timestamps — here the generic
record, already assembled by the caller) and awaits
db.add(STORES.PROFILES, profile). -/
def createProfile (db : IDB) (profile : StoredRec) : Except String IDB :=
  dbAdd db STORES_PROFILES profile

/-- getAllProfiles: db.getAll(STORES.PROFILES). -/
def getAllProfiles (db : IDB) : Except String (List StoredRec) :=
  dbGetAll db STORES_PROFILES

/-- getActiveProfile (src/lib/profiles.ts lines 35-41) for a non-null active
profile id: db.get(STORES.PROFILES, profileId), null when absent. -/
def getActiveProfile (db : IDB) (profileId : String) :
    Except String (Option StoredRec) :=
  dbGet db STORES_PROFILES profileId

/-- switchProfile (src/lib/profiles.ts lines 91-98): looks the profile up in
the profiles store; when it exists and isActive holds, the active-profile
pointer is set to profileId (returned as .ok profileId — the caller writes it
to localStorage); otherwise the function throws
'Profile not found or inactive'. A rejection of db.get propagates. -/
def switchProfile (db : IDB) (profileId : String) : Except String String :=
  match dbGet db STORES_PROFILES profileId with
  | .error e => .error e
  | .ok (some profile) =>
    if profile.isActive then .ok profileId
    else .error "Profile not found or inactive"
  | .ok none => .error "Profile not found or inactive"

/-- The store record sets of a version-2 backup document. -/
structure BackupData where
  behaviors : List StoredRec
  reinforcers : List StoredRec
  crisisProtocols : List StoredRec
  profiles : List StoredRec
deriving DecidableEq, Repr

/-- The backup document exportAllData builds. -/
structure Backup where
  version : Nat
  exportDate : String
  data : BackupData
deriving DecidableEq, Repr

/-- exportAllData (src/lib/profiles.ts lines 131-149): awaits getAll on the
behaviors, reinforcers, crisisProtocols and profiles stores (Promise.all: a
rejection of any call rejects the whole), then wraps the four arrays in a
version-2 document stamped with the current time. -/
def exportAllData (db : IDB) (now : String) : Except String Backup := do
  let behaviors ← dbGetAll db STORES_BEHAVIORS
  let reinforcers ← dbGetAll db STORES_REINFORCERS
  let crisisProtocols ← dbGetAll db STORES_CRISIS_PROTOCOLS
  let profiles ← dbGetAll db STORES_PROFILES
  .ok ⟨2, now, ⟨behaviors, reinforcers, crisisProtocols, profiles⟩⟩

/-- backupData.data as importAllData reads it: each store's array may be
absent (the branch is skipped when the field is not a present array). -/
structure BackupInput where
  behaviors : Option (List StoredRec)
  reinforcers : Option (List StoredRec)
  crisisProtocols : Option (List StoredRec)
  profiles : Option (List StoredRec)
deriving Repr

/-- One iteration of an import loop in importAllData: try
db.add(storeName, item); on any rejection, fall back to
db.update(storeName, item). -/
def importRecord (db : IDB) (storeName : Option String) (item : StoredRec) :
    Except String IDB :=
  match dbAdd db storeName item with
  | .ok db2 => .ok db2
  | .error _ => dbUpdate db storeName item

/-- The for-of loop of one import branch, record by record. -/
def importStoreRecords (db : IDB) (storeName : Option String) :
    List StoredRec → Except String IDB
  | [] => .ok db
  | item :: rest => do
    let db2 ← importRecord db storeName item
    importStoreRecords db2 storeName rest

/-- One guarded branch of importAllData: runs the loop only when the backup
carries a present array for the store. -/
def importBranch (db : IDB) (storeName : Option String)
    (recs : Option (List StoredRec)) : Except String IDB :=
  match recs with
  | some items => importStoreRecords db storeName items
  | none => .ok db

/-- importAllData (src/lib/profiles.ts lines 152-203): throws
'Invalid backup format' when backupData.data is absent, then imports
profiles, behaviors, reinforcers and crisis protocols in that order, each
record by add-then-update-on-failure. -/
def importAllData (db : IDB) (backup : Option BackupInput) : Except String IDB :=
  match backup with
  | none => .error "Invalid backup format"
  | some data => do
    let db1 ← importBranch db STORES_PROFILES data.profiles
    let db2 ← importBranch db1 STORES_BEHAVIORS data.behaviors
    let db3 ← importBranch db2 STORES_REINFORCERS data.reinforcers
    let db4 ← importBranch db3 STORES_CRISIS_PROTOCOLS data.crisisProtocols
    .ok db4

/-- Replace-or-append by key: the declarative reading of store.put followed
for each imported record — an upsert. Used to characterize the import loop. -/
def upsertById (recs : List StoredRec) (item : StoredRec) : List StoredRec :=
  if recs.any (fun r => r.id == item.id) then
    recs.map fun r => if r.id == item.id then item else r
  else recs ++ [item]

/-! ## src/lib/analytics.ts -/

/-- One element of the weeklyAverages array built by detectMilestones: a
group key (the variable is called weekStart in the source), the running
average severity and the number of entries seen for that key. -/
structure WeeklyAverage where
  week : Nat
  avgSeverity : ℚ
  count : Nat
deriving DecidableEq, Repr

/-- The group key detectMilestones computes for an entry:
format(startOfDay(new Date(behavior.date)), 'yyyy-MM-dd'). startOfDay
truncates to midnight of the entry's own calendar day, so the key is the
entry's calendar day, not the start of its week. -/
def weekStartOf (b : BehaviorEntry) : Nat := b.date

/-- The body of the grouping loop of detectMilestones: find the group with
this entry's key and fold the severity into its running average, or push a
fresh group. The source mutates the single group found by find; keys in the
array are pairwise distinct (a group is only pushed when its key is absent),
so updating every group with a matching key is the same operation. -/
def addToWeeklyAverages (ws : List WeeklyAverage) (b : BehaviorEntry) : List WeeklyAverage :=
  let weekStart := weekStartOf b
  if ws.any (fun w => w.week == weekStart) then
    ws.map fun w =>
      if w.week == weekStart then
        { w with
          avgSeverity :=
            (w.avgSeverity * (w.count : ℚ) + (b.severity : ℚ)) / ((w.count : ℚ) + 1)
          count := w.count + 1 }
      else w
  else ws ++ [{ week := weekStart, avgSeverity := (b.severity : ℚ), count := 1 }]

/-- The weeklyAverages array after the grouping loop has run over the sorted
entries. -/
def weeklyAveragesOf (sorted : List BehaviorEntry) : List WeeklyAverage :=
  sorted.foldl addToWeeklyAverages []

/-- The significant-change loop of detectMilestones: for each pair of
consecutive groups, with change = prev.avgSeverity - curr.avgSeverity, push
an improvement milestone when change exceeds 0.4 and the later group has at
least 3 entries, else a regression milestone when change is below -0.4 with
the same count condition. -/
def changeMilestones : List WeeklyAverage → List Milestone
  | prev :: curr :: rest =>
    let change := prev.avgSeverity - curr.avgSeverity
    let here : List Milestone :=
      if change > 0.4 ∧ curr.count ≥ 3 then
        [{ id := "milestone-" ++ toString curr.week
           date := curr.week
           type := .improvement
           metric := "severity"
           value := curr.avgSeverity
           confidence := min ((curr.count : ℚ) / 7) 1 }]
      else if change < -0.4 ∧ curr.count ≥ 3 then
        [{ id := "milestone-" ++ toString curr.week
           date := curr.week
           type := .regression
           metric := "severity"
           value := curr.avgSeverity
           confidence := min ((curr.count : ℚ) / 7) 1 }]
      else []
    here ++ changeMilestones (curr :: rest)
  | _ => []

/-- The frequency-milestone check of detectMilestones: when there are at
least two groups, compare the last group's count with the one before it
(indices length-1 and length-2, read here off the reversed list) and push an
improvement milestone when the recent count is below half the previous
count. -/
def freqMilestones (ws : List WeeklyAverage) : List Milestone :=
  match ws.reverse with
  | recentWeek :: previousWeek :: _ =>
    if (recentWeek.count : ℚ) < (previousWeek.count : ℚ) * 0.5 then
      [{ id := "milestone-freq-" ++ toString recentWeek.week
         date := recentWeek.week
         type := .improvement
         metric := "frequency"
         value := (recentWeek.count : ℚ)
         confidence := 0.8 }]
    else []
  | _ => []

/-- Stable insertion into a list already sorted by date. -/
def insertByDate (b : BehaviorEntry) : List BehaviorEntry → List BehaviorEntry
  | [] => [b]
  | x :: xs => if b.date ≤ x.date then b :: x :: xs else x :: insertByDate b xs

/-- The sort at the top of detectMilestones:
[...behaviors].sort((a, b) => dateOf(a) - dateOf(b)) — a stable ascending
sort by date. -/
def sortByDate : List BehaviorEntry → List BehaviorEntry
  | [] => []
  | b :: rest => insertByDate b (sortByDate rest)

/-- detectMilestones (src/lib/analytics.ts): returns no milestones below 7
entries; otherwise sorts by date, builds the per-key severity averages and
emits the significant-change milestones followed by the frequency check. -/
def detectMilestones (behaviors : List BehaviorEntry) : List Milestone :=
  if behaviors.length < 7 then []
  else
    let sorted := sortByDate behaviors
    let weeklyAverages := weeklyAveragesOf sorted
    changeMilestones weeklyAverages ++ freqMilestones weeklyAverages

/-- A grouping total: key, summed severity and entry count. Used by the
declarative grouping definitions the fold of detectMilestones is proved
equal to. -/
structure SumGroup where
  week : Nat
  total : ℚ
  count : Nat
deriving DecidableEq, Repr

/-- The average-severity group denoted by a total: mean = total / count. -/
def toAvg (g : SumGroup) : WeeklyAverage :=
  ⟨g.week, g.total / (g.count : ℚ), g.count⟩

/-- Declarative grouping of entries under a key function, in order of first
occurrence: each group carries the exact severity sum and count of the
entries sharing its key. -/
def groupSumBy (key : BehaviorEntry → Nat) : List BehaviorEntry → List SumGroup
  | [] => []
  | b :: rest =>
    let same := rest.filter fun x => key x == key b
    ⟨key b, (b.severity : ℚ) + (same.map fun x => (x.severity : ℚ)).sum, 1 + same.length⟩
      :: groupSumBy key (rest.filter fun x => key x != key b)
termination_by l => l.length
decreasing_by
  simp only [List.length_cons]
  exact Nat.lt_succ_of_le (List.length_filter_le _ _)

/-- Shadow of addToWeeklyAverages carrying severity totals instead of
running averages: the running average of the source equals total / count,
which the lemmas below make precise. -/
def addToSumGroups (gs : List SumGroup) (b : BehaviorEntry) : List SumGroup :=
  if gs.any (fun g => g.week == weekStartOf b) then
    gs.map fun g =>
      if g.week == weekStartOf b then ⟨g.week, g.total + (b.severity : ℚ), g.count + 1⟩
      else g
  else gs ++ [⟨weekStartOf b, (b.severity : ℚ), 1⟩]

/-- Extends a group's total and count by all entries of a list that share
its key. -/
def absorbEntries (l : List BehaviorEntry) (g : SumGroup) : SumGroup :=
  ⟨g.week,
   g.total + ((l.filter fun x => weekStartOf x == g.week).map fun x => (x.severity : ℚ)).sum,
   g.count + (l.filter fun x => weekStartOf x == g.week).length⟩

/-- The calendar week containing a day, weeks taken as aligned 7-day blocks
of the day numbering. -/
def weekOf (day : Nat) : Nat := day / 7

/-- Statement of claim C5 rendered as a definition, following the claim's
words rather than the source: group the entries by calendar week, average
severity per week, and emit an improvement or regression milestone exactly
when consecutive weekly averages differ by more than 0.4 and the later week
has at least 3 entries. Compared against detectMilestones. -/
def detectMilestonesWeeklyClaim (behaviors : List BehaviorEntry) : List Milestone :=
  changeMilestones
    ((groupSumBy (fun b => weekOf b.date) (sortByDate behaviors)).map toAvg)

/-- Association-list bump for the reduce pattern
"dist[k] = (dist[k] || 0) + 1" over an object literal, keys kept in
insertion order. -/
def bumpCount {α : Type} [BEq α] (dist : List (α × Nat)) (key : α) : List (α × Nat) :=
  if dist.any (fun kv => kv.1 == key) then
    dist.map fun kv => if kv.1 == key then (kv.1, kv.2 + 1) else kv
  else dist ++ [(key, 1)]

/-- Object property read dist[k]: some count when the key is present. -/
def lookupCount {α : Type} [BEq α] (dist : List (α × Nat)) (key : α) : Option Nat :=
  (dist.find? fun kv => kv.1 == key).map fun kv => kv.2

/-- The mostCommonFunction reduce of calculateBehaviorAnalytics: over the
entries of functionDistribution, keep func when its count exceeds the
distribution's count for the current maximum, starting from ESCAPE. A read
of an absent key is undefined and the comparison with it is false. -/
def mostCommonFunctionOf (functionDistribution : List (BehaviorFunction × Nat)) :
    BehaviorFunction :=
  functionDistribution.foldl
    (fun max kv =>
      match lookupCount functionDistribution max with
      | some c => if kv.2 > c then kv.1 else max
      | none => max)
    .escape

/-- Interface BehaviorAnalytics from src/types/index.ts, with the dictionary
fields as association lists. -/
structure BehaviorAnalytics where
  totalEntries : Nat
  averageSeverity : ℚ
  mostCommonFunction : BehaviorFunction
  frequencyByDay : List (Nat × Nat)
  severityDistribution : List (Int × Nat)
  functionDistribution : List (BehaviorFunction × Nat)
  timeOfDayPatterns : List (Nat × Nat)
  milestones : List Milestone
deriving DecidableEq, Repr

/-- calculateBehaviorAnalytics (src/lib/analytics.ts lines 5-83): the
all-zero object on an empty list, otherwise the aggregates computed by the
reduces of the source (frequencyByDay keys are the entries' days, and
timeOfDayPatterns keys the hour parsed from the time field). -/
def calculateBehaviorAnalytics (behaviors : List BehaviorEntry) : BehaviorAnalytics :=
  if behaviors.length == 0 then
    { totalEntries := 0
      averageSeverity := 0
      mostCommonFunction := .escape
      frequencyByDay := []
      severityDistribution := [(1, 0), (2, 0), (3, 0), (4, 0), (5, 0)]
      functionDistribution := [(.escape, 0), (.attention, 0), (.tangible, 0), (.sensory, 0)]
      timeOfDayPatterns := []
      milestones := [] }
  else
    let totalEntries := behaviors.length
    let totalSeverity : Int := behaviors.foldl (fun sum b => sum + b.severity) 0
    let averageSeverity : ℚ := (totalSeverity : ℚ) / (totalEntries : ℚ)
    let severityDistribution := behaviors.foldl (fun dist b => bumpCount dist b.severity) []
    let functionDistribution := behaviors.foldl (fun dist b => bumpCount dist b.function) []
    let mostCommonFunction := mostCommonFunctionOf functionDistribution
    let frequencyByDay := behaviors.foldl (fun freq b => bumpCount freq b.date) []
    let timeOfDayPatterns := behaviors.foldl (fun patterns b => bumpCount patterns b.time) []
    let milestones := detectMilestones behaviors
    { totalEntries := totalEntries
      averageSeverity := averageSeverity
      mostCommonFunction := mostCommonFunction
      frequencyByDay := frequencyByDay
      severityDistribution := severityDistribution
      functionDistribution := functionDistribution
      timeOfDayPatterns := timeOfDayPatterns
      milestones := milestones }

/-! ## src/lib/pdf-import.ts -/

/-- A Partial BehaviorEntry, as produced by the AI extraction paths and
consumed by validateExtractedBehavior: every field may be undefined. Dates
and times are the denoted day number and hour (see the module conventions). -/
structure ExtractedEntry where
  date : Option Nat
  time : Option Nat
  antecedent : Option String
  behavior : Option String
  consequence : Option String
  severity : Option Int
  function : Option BehaviorFunction
  duration : Option Int
  intensity : Option Int
  location : Option String
  notes : Option String
deriving DecidableEq, Repr

/-- mapSeverity (src/lib/pdf-import.ts lines 194-200): parseInt the value
(none stands for a NaN result), keep it when it lies in 1..5, otherwise
default to SeverityLevel.MODERATE. -/
def mapSeverity (severity : Option Int) : Int :=
  match severity with
  | some num => if 1 ≤ num ∧ num ≤ 5 then num else SeverityLevel.moderate.val
  | none => SeverityLevel.moderate.val

/-- A string field check of validateExtractedBehavior:
"!field || field.trim().length === 0". -/
def strMissing : Option String → Bool
  | none => true
  | some s => s == "" || s.trim == ""

/-- The result object of validateExtractedBehavior. -/
structure ValidationResult where
  valid : Bool
  errors : List String
deriving DecidableEq, Repr

/-- validateExtractedBehavior (src/lib/pdf-import.ts lines 221-246):
collects an error per missing field; valid when no error was collected. -/
def validateExtractedBehavior (behavior : ExtractedEntry) : ValidationResult :=
  let errors :=
    (if behavior.date.isNone then ["Missing date"] else []) ++
    (if behavior.time.isNone then ["Missing time"] else []) ++
    (if strMissing behavior.antecedent then ["Missing antecedent"] else []) ++
    (if strMissing behavior.behavior then ["Missing behavior description"] else []) ++
    (if strMissing behavior.consequence then ["Missing consequence"] else [])
  ⟨errors.length == 0, errors⟩

/-- The PDFImportResult interface of src/lib/pdf-import.ts:
extractBehaviorsFromPDF resolves with success true and the mapped behaviors,
or — on any thrown error — with success false, no behaviors and a message. -/
structure PDFImportResult where
  success : Bool
  behaviors : List ExtractedEntry
  rawText : Option String
  error : Option String
deriving DecidableEq, Repr

/-! ## src/lib/multimodal-conversation.ts (extractBehaviorData)

The identical construction appears in src/lib/voice-conversation.ts lines
296-307. -/

/-- The JSON object parsed out of the model's extraction reply: each field
may be null. -/
structure ConversationJSON where
  date : Option Nat
  time : Option Nat
  antecedent : Option String
  behavior : Option String
  consequence : Option String
  severity : Option Int
  function : Option BehaviorFunction
  duration : Option Int
  location : Option String
  notes : Option String
deriving DecidableEq, Repr

/-- The Partial BehaviorEntry the conversation extraction builds from the
parsed JSON (src/lib/multimodal-conversation.ts lines 502-513): every field
defaults with "x || d". The severity line is
"severity: behaviorData.severity || SeverityLevel.MODERATE" — the returned
number is kept as-is whenever it is not falsy, with no range check. -/
def extractedConversationEntry (behaviorData : ConversationJSON)
    (todayDate : Nat) (nowTime : Nat) : ExtractedEntry :=
  { date := some (jsOrNat behaviorData.date todayDate)
    time := some (jsOrNat behaviorData.time nowTime)
    antecedent := some (jsOrStr behaviorData.antecedent "")
    behavior := some (jsOrStr behaviorData.behavior "")
    consequence := some (jsOrStr behaviorData.consequence "")
    severity := some (jsOrInt behaviorData.severity SeverityLevel.moderate.val)
    function := some (behaviorData.function.getD .escape)
    duration := jsOrUndefInt behaviorData.duration
    intensity := none
    location := jsOrUndefStr behaviorData.location
    notes := jsOrUndefStr behaviorData.notes }

/-! ## src/pages/behaviors/new.tsx -/

/-- The formData state of the new-behavior page. -/
structure BehaviorFormState where
  date : Nat
  time : Nat
  antecedent : String
  behavior : String
  consequence : String
  severity : Int
  function : BehaviorFunction
  duration : Option Int
  intensity : Option Int
  location : String
  notes : String
deriving DecidableEq, Repr

/-- The initial formData of the new-behavior page: today's date and time,
severity MODERATE, function ESCAPE, everything else empty. -/
def initialBehaviorForm (todayDate : Nat) (nowTime : Nat) : BehaviorFormState :=
  { date := todayDate
    time := nowTime
    antecedent := ""
    behavior := ""
    consequence := ""
    severity := SeverityLevel.moderate.val
    function := .escape
    duration := none
    intensity := none
    location := ""
    notes := "" }

/-- handleBehaviorExtracted (src/pages/behaviors/new.tsx lines 91-111):
fills the form with the extracted data, keeping the previous value wherever
the extracted field is falsy ("behavior.severity || prev.severity" keeps the
extracted severity unchanged whenever it is a non-zero number). -/
def handleBehaviorExtracted (prev : BehaviorFormState) (b : ExtractedEntry) :
    BehaviorFormState :=
  { date := jsOrNat b.date prev.date
    time := jsOrNat b.time prev.time
    antecedent := jsOrStr b.antecedent prev.antecedent
    behavior := jsOrStr b.behavior prev.behavior
    consequence := jsOrStr b.consequence prev.consequence
    severity := jsOrInt b.severity prev.severity
    function := b.function.getD prev.function
    duration := match b.duration with | some n => some n | none => prev.duration
    intensity := match b.intensity with | some n => some n | none => prev.intensity
    location := jsOrStr b.location prev.location
    notes := jsOrStr b.notes prev.notes }

/-- The BehaviorEntry literal saved by handleSubmit of the new-behavior page
(src/pages/behaviors/new.tsx lines 118-135), then passed to
db.add(STORES.BEHAVIORS, entry). -/
def handleSubmitEntry (form : BehaviorFormState) (id now : String) : BehaviorEntry :=
  { id := id
    date := form.date
    time := form.time
    antecedent := form.antecedent
    behavior := form.behavior
    consequence := form.consequence
    severity := form.severity
    function := form.function
    duration := form.duration
    intensity := form.intensity
    location := if form.location == "" then none else some form.location
    notes := if form.notes == "" then none else some form.notes
    createdBy := none
    createdAt := now
    updatedAt := now }

/-- The option values of the severity select of the new-behavior page
(src/pages/behaviors/new.tsx lines 330-342): exactly the five SeverityLevel
members, in order. -/
def severitySelectOptions : List SeverityLevel :=
  [.mild, .moderate, .significant, .severe, .critical]

/-! ## src/components/PDFImport.tsx -/

/-- An element of the extractedBehaviors state: a behavior with its
validation outcome; valid behaviors are auto-selected. -/
structure ExtractedBehaviorWithStatus where
  behavior : ExtractedEntry
  valid : Bool
  errors : List String
  selected : Bool
deriving DecidableEq, Repr

/-- The currentStep state of the PDFImport component. -/
inductive ImportStep
  | upload
  | review
  | complete
deriving DecidableEq, Repr

/-- The component state touched by handleProcessFiles. -/
structure PDFImportState where
  error : Option String
  extractedBehaviors : List ExtractedBehaviorWithStatus
  currentStep : ImportStep
  rawText : String
deriving DecidableEq, Repr

/-- The for-of loop of handleProcessFiles over (file name, extraction
result) pairs: a result with success false throws
"result.error || 'Failed to process PDF'", aborting the loop; a successful
result appends its raw text chunk and its validated behaviors. -/
def processFilesLoop : List (String × PDFImportResult) →
    List ExtractedBehaviorWithStatus → String →
    Except String (List ExtractedBehaviorWithStatus × String)
  | [], allBehaviors, combinedRawText => .ok (allBehaviors, combinedRawText)
  | (fileName, result) :: rest, allBehaviors, combinedRawText =>
    if result.success then
      let combined :=
        match result.rawText with
        | some raw => combinedRawText ++ "\n\n=== " ++ fileName ++ " ===\n" ++ raw
        | none => combinedRawText
      let tagged := result.behaviors.map fun behavior =>
        let validation := validateExtractedBehavior behavior
        ⟨behavior, validation.valid, validation.errors, validation.valid⟩
      processFilesLoop rest (allBehaviors ++ tagged) combined
    else .error (jsOrStr result.error "Failed to process PDF")

/-- handleProcessFiles (src/components/PDFImport.tsx lines 82-122): returns
unchanged on an empty file list; otherwise clears the error and runs the
loop — on success it stores the combined raw text and all extracted
behaviors and moves to the review step; on a thrown error it only sets the
error message, so the step and the extracted list are left as they were. -/
def handleProcessFiles (st : PDFImportState)
    (results : List (String × PDFImportResult)) : PDFImportState :=
  if results.isEmpty then st
  else
    match processFilesLoop results [] "" with
    | .ok (allBehaviors, raw) =>
      { error := none
        extractedBehaviors := allBehaviors
        currentStep := .review
        rawText := raw }
    | .error msg => { st with error := some msg }

/-! ## src/pages/reinforcers.tsx -/

/-- The formData state of the reinforcers page. -/
structure ReinforcerFormData where
  name : String
  type : ReinforcerType
  effectiveness : Int
  avoidRepetitionDays : Int
  notes : String
deriving DecidableEq, Repr

/-- The Reinforcer literal built by handleSubmit of the reinforcers page
(src/pages/reinforcers.tsx lines 44-54): usageCount starts at 0, lastUsed is
absent. -/
def mkReinforcer (form : ReinforcerFormData) (id now : String) : Reinforcer :=
  { id := id
    name := form.name
    type := form.type
    lastUsed := none
    usageCount := 0
    effectiveness := form.effectiveness
    avoidRepetitionDays := some form.avoidRepetitionDays
    notes := if form.notes == "" then none else some form.notes
    createdAt := now
    updatedAt := now }

/-- The db.add(STORES.REINFORCERS, reinforcer) call of handleSubmit at the
store level: add rejects on a duplicate key, handleSubmit catches and logs,
leaving the store unchanged. -/
def reinforcersAdd (store : List Reinforcer) (r : Reinforcer) : List Reinforcer :=
  if store.any (fun x => x.id == r.id) then store else store ++ [r]

/-- handleUse (src/pages/reinforcers.tsx lines 71-80) at the store level:
the clicked reinforcer is the stored record with this id; the updated copy
stamps lastUsed, increments usageCount by one and is written back with
db.update (put replaces the record at that key). A click can only target a
displayed, hence stored, record; an absent id leaves the store unchanged. -/
def handleUse (store : List Reinforcer) (id now : String) : List Reinforcer :=
  match store.find? (fun x => x.id == id) with
  | some reinforcer =>
    let updated : Reinforcer :=
      { reinforcer with
        lastUsed := some now
        usageCount := reinforcer.usageCount + 1
        updatedAt := now }
    store.map fun r => if r.id == id then updated else r
  | none => store

/-- The reinforcer-store operations the page can perform. -/
inductive ReinforcerOp
  | create (form : ReinforcerFormData) (id now : String)
  | use (id now : String)

/-- Applies one page operation to the reinforcers store. -/
def applyReinforcerOp (store : List Reinforcer) : ReinforcerOp → List Reinforcer
  | .create form id now => reinforcersAdd store (mkReinforcer form id now)
  | .use id now => handleUse store id now

/-- Applies a sequence of page operations, earliest first. -/
def applyReinforcerOps (store : List Reinforcer) (ops : List ReinforcerOp) :
    List Reinforcer :=
  ops.foldl applyReinforcerOp store

/-! ## Concrete inputs used by counterexamples and witnesses -/

/-- A behavior entry on a given day with a given severity; the remaining
fields are fixed harmless values. -/
def exEntry (i : Nat) (d : Nat) (sev : Int) : BehaviorEntry :=
  ⟨"behavior-" ++ toString i, d, 9, "a", "b", "c", sev, .escape,
   none, none, none, none, none, "t", "t"⟩

/-- Seven entries spanning two consecutive days of one calendar week: four
of severity 5 on day 0 and three of severity 1 on day 1. -/
def milestonesInput7 : List BehaviorEntry :=
  [exEntry 1 0 5, exEntry 2 0 5, exEntry 3 0 5, exEntry 4 0 5,
   exEntry 5 1 1, exEntry 6 1 1, exEntry 7 1 1]

/-- A conversation-extraction JSON reply whose only present field is a
severity number. -/
def convJSONSeverity (v : Int) : ConversationJSON :=
  ⟨none, none, none, none, none, some v, none, none, none, none⟩

/-- The behavior entry that reaches db.add when a conversation extraction
returns severity 7: the extraction copies it unclamped, the form merge keeps
it, and the submit handler stores it. -/
def storedConversationEntry : BehaviorEntry :=
  handleSubmitEntry
    (handleBehaviorExtracted (initialBehaviorForm 0 9)
      (extractedConversationEntry (convJSONSeverity 7) 0 9))
    "behavior-1" "t1"

/-- A behavior record already present in the behaviors store before a backup
import. -/
def importedBehaviorOld : StoredRec := ⟨"behavior-1", false, 0⟩

/-- A backup record with the same id but different contents. -/
def importedBehaviorNew : StoredRec := ⟨"behavior-1", false, 1⟩

/-- A database whose behaviors store already holds the old record. -/
def behaviorsStateBefore : IDB := ⟨[importedBehaviorOld], [], []⟩

/-- A backup document carrying only a behaviors array, with a record whose
id already exists in the store. -/
def behaviorsBackup : Option BackupInput :=
  some ⟨some [importedBehaviorNew], none, none, none⟩

/-- An initial PDFImport component state: upload step, nothing extracted. -/
def pdfStateExample : PDFImportState := ⟨none, [], .upload, ""⟩

/-- A two-file batch whose first file extracts successfully and whose second
fails. -/
def pdfResultsExample : List (String × PDFImportResult) :=
  [("a.pdf", ⟨true, [], some "text", none⟩),
   ("b.pdf", ⟨false, [], none, some "Could not parse AI response"⟩)]

/-- A stored reinforcer with usage count 0. -/
def reinforcerExample : Reinforcer :=
  ⟨"reinforcer-1", "MandMs", .edible, none, 0, 3, some 7, none, "t0", "t0"⟩

/-! ## Theorems -/

/-- C1. The export/import backup round trip cannot succeed on the code as
written: STORES has no PROFILES member, so exportAllData's getAll on
STORES.PROFILES targets no object store and always rejects with
NotFoundError — no backup document is ever produced — and importAllData
rejects likewise on any backup whose profiles array is nonempty. -/
theorem export_backup_roundtrip_broken :
    (∀ (db : IDB) (now : String), exportAllData db now = .error "NotFoundError")
    ∧ (∀ (db : IDB) (beh rei cri : Option (List StoredRec)) (p : StoredRec)
        (ps : List StoredRec),
        importAllData db (some ⟨beh, rei, cri, some (p :: ps)⟩) = .error "NotFoundError") := by
  constructor
  · intro db now
    rfl
  · intro db beh rei cri p ps
    rfl

/-- C2. The profiles store targeted by the operations of lib/profiles.ts is
not among the object stores Database.init creates: STORES.PROFILES is an
absent property of the STORES constant, init creates exactly behaviors,
reinforcers and crisisProtocols, and consequently every profiles operation
(getAllProfiles, createProfile, getActiveProfile) rejects with
NotFoundError. -/
theorem profiles_store_missing :
    STORES_PROFILES = none
    ∧ (upgradeNeeded []).map (fun s => s.name) = ["behaviors", "reinforcers", "crisisProtocols"]
    ∧ (∀ db : IDB, getAllProfiles db = .error "NotFoundError")
    ∧ (∀ (db : IDB) (p : StoredRec), createProfile db p = .error "NotFoundError")
    ∧ (∀ (db : IDB) (id : String), getActiveProfile db id = .error "NotFoundError") :=
  ⟨rfl, by decide, fun _ => rfl, fun _ _ => rfl, fun _ _ => rfl⟩

/-- C6. On first open, Database.init opens ABATrackerDB at version 1, and
the upgrade handler creates exactly the three object stores behaviors,
reinforcers and crisisProtocols, each with keyPath 'id', with indexes
date/severity/function, type/lastUsed and isActive respectively (all
non-unique). -/
theorem database_schema_v1_spec :
    DB_NAME = "ABATrackerDB" ∧ DB_VERSION = 1 ∧
    upgradeNeeded [] =
      [⟨"behaviors", "id",
        [⟨"date", "date", false⟩, ⟨"severity", "severity", false⟩,
         ⟨"function", "function", false⟩]⟩,
       ⟨"reinforcers", "id",
        [⟨"type", "type", false⟩, ⟨"lastUsed", "lastUsed", false⟩]⟩,
       ⟨"crisisProtocols", "id", [⟨"isActive", "isActive", false⟩]⟩] :=
  ⟨rfl, rfl, by decide⟩

/-- C9. On the empty entry list, calculateBehaviorAnalytics returns the
fully zeroed analytics object: zero totals, average severity 0, most common
function ESCAPE, empty day and hour dictionaries, all-zero severity and
function distributions and no milestones. -/
theorem analytics_empty_zeroed :
    calculateBehaviorAnalytics [] =
      { totalEntries := 0
        averageSeverity := 0
        mostCommonFunction := .escape
        frequencyByDay := []
        severityDistribution := [(1, 0), (2, 0), (3, 0), (4, 0), (5, 0)]
        functionDistribution :=
          [(.escape, 0), (.attention, 0), (.tangible, 0), (.sensory, 0)]
        timeOfDayPatterns := []
        milestones := [] } := rfl

/-- C10. switchProfile never performs the lookup the claim describes: its
db.get targets the absent STORES.PROFILES store reference, so for every
database state and every profile id it rejects with NotFoundError — which is
not the claimed 'Profile not found or inactive' error — and the
active-profile pointer is never set. -/
theorem switch_profile_always_rejects :
    ∀ (db : IDB) (profileId : String),
      switchProfile db profileId = .error "NotFoundError"
      ∧ ("NotFoundError" : String) ≠ "Profile not found or inactive" := by
  intro db profileId
  exact ⟨rfl, by decide⟩

/-- C4 counterexample. A conversation extraction that returns severity 7
produces a stored behavior entry with severity 7: the multimodal/voice
extraction copies the model's severity unclamped (only a falsy value
defaults to MODERATE), the form merge keeps any non-zero number, and the
submit handler stores it — so the stored severity lies outside [1, 5]. -/
theorem conversation_severity_unclamped_cex :
    storedConversationEntry.severity = 7
    ∧ ¬(1 ≤ storedConversationEntry.severity ∧ storedConversationEntry.severity ≤ 5) := by
  decide

/-- C5 counterexample. On seven entries spread over two days of a single
calendar week, the weekly-average reading of the claim yields no milestone
(one week, no consecutive pair), but detectMilestones emits one improvement
milestone: its groups are calendar days, not weeks. -/
theorem detect_milestones_not_weekly_cex :
    detectMilestonesWeeklyClaim milestonesInput7 = []
    ∧ (detectMilestones milestonesInput7).length = 1
    ∧ detectMilestones milestonesInput7 ≠ detectMilestonesWeeklyClaim milestonesInput7 := by
  have hw : detectMilestonesWeeklyClaim milestonesInput7 = [] := by
    simp [detectMilestonesWeeklyClaim, groupSumBy, sortByDate, insertByDate,
      milestonesInput7, exEntry, weekOf, changeMilestones, toAvg]
  have hgroups : weeklyAveragesOf (sortByDate milestonesInput7) = [⟨0, 5, 4⟩, ⟨1, 1, 3⟩] := by
    norm_num [weeklyAveragesOf, sortByDate, insertByDate, addToWeeklyAverages,
      milestonesInput7, exEntry, weekStartOf]
  have hd : detectMilestones milestonesInput7 =
      [{ id := "milestone-1", date := 1, type := .improvement, metric := "severity",
         value := 1, confidence := min ((3 : ℚ) / 7) 1 }] := by
    rw [detectMilestones, if_neg (by norm_num [milestonesInput7, exEntry])]
    show changeMilestones (weeklyAveragesOf (sortByDate milestonesInput7)) ++
        freqMilestones (weeklyAveragesOf (sortByDate milestonesInput7)) = _
    rw [hgroups]
    norm_num [changeMilestones, freqMilestones]
    rfl
  refine ⟨hw, by rw [hd]; rfl, by rw [hd, hw]; simp⟩

/-- C7 counterexample. importAllData issues a put against the behaviors
store for an existing id: importing a backup whose behaviors array carries a
record with an id already in the store replaces the stored record in place
(add rejects with ConstraintError, the catch falls back to update). -/
theorem import_put_existing_behavior_cex :
    importAllData behaviorsStateBefore behaviorsBackup =
      .ok ⟨[importedBehaviorNew], [], []⟩
    ∧ importedBehaviorNew.id = importedBehaviorOld.id
    ∧ importedBehaviorNew ≠ importedBehaviorOld := by
  refine ⟨rfl, rfl, by decide⟩

/-- C4 amended. Entries created through the form or the PDF import have
severity in [1, 5]: mapSeverity always yields an integer between 1 and 5
(defaulting to MODERATE outside that range) and the form select offers
exactly the five SeverityLevel values 1..5 — but the conversation extraction
copies any non-zero severity the model returns without a range check. -/
theorem severity_range_amended :
    (∀ severity : Option Int, 1 ≤ mapSeverity severity ∧ mapSeverity severity ≤ 5)
    ∧ severitySelectOptions.map SeverityLevel.val = [1, 2, 3, 4, 5]
    ∧ (∀ v : Int, v ≠ 0 →
        (extractedConversationEntry (convJSONSeverity v) 0 9).severity = some v) := by
  refine ⟨?_, by decide, ?_⟩
  · intro s
    rcases s with _ | num
    · exact ⟨by decide, by decide⟩
    · by_cases h : 1 ≤ num ∧ num ≤ 5
      · simpa [mapSeverity, if_pos h] using h
      · simp only [mapSeverity, if_neg h]
        exact ⟨by decide, by decide⟩
  · intro v hv
    have hb : (v == 0) = false := beq_eq_false_iff_ne.mpr hv
    simp [extractedConversationEntry, convJSONSeverity, jsOrInt, hb]

/-- C4 witness. A concrete non-zero severity (7) passes the conversation
extraction unchanged. -/
theorem severity_range_amended_witness :
    ((7 : Int) ≠ 0)
    ∧ (extractedConversationEntry (convJSONSeverity 7) 0 9).severity = some 7 :=
  ⟨by decide, severity_range_amended.2.2 7 (by decide)⟩

/-- Helper for C8: once any file of the batch has a failed extraction
result, the processing loop yields an error, whatever was accumulated from
the files before it. -/
theorem processFilesLoop_error_of_failure :
    ∀ (results : List (String × PDFImportResult))
      (acc : List ExtractedBehaviorWithStatus) (raw : String),
      (∃ pr ∈ results, pr.2.success = false) →
      ∃ msg, processFilesLoop results acc raw = .error msg := by
  intro results
  induction results with
  | nil =>
    intro acc raw h
    obtain ⟨pr, hmem, _⟩ := h
    simp at hmem
  | cons hd tl ih =>
    intro acc raw h
    obtain ⟨fileName, result⟩ := hd
    by_cases hs : result.success
    · have htl : ∃ pr ∈ tl, pr.2.success = false := by
        obtain ⟨pr, hmem, hfail⟩ := h
        rcases List.mem_cons.mp hmem with h1 | h1
        · subst h1
          rw [hfail] at hs
          cases hs
        · exact ⟨pr, h1, hfail⟩
      simp only [processFilesLoop, hs, if_true]
      exact ih _ _ htl
    · refine ⟨jsOrStr result.error "Failed to process PDF", ?_⟩
      simp only [processFilesLoop]
      rw [if_neg hs]

/-- C8. If extraction of any file in a batch fails, handleProcessFiles only
records the error: the step does not advance to review and the extracted-
behaviors list is untouched, so no behaviors from any file of the batch —
files already processed successfully included — are presented for review. -/
theorem pdf_batch_abort_on_failure :
    ∀ (st : PDFImportState) (results : List (String × PDFImportResult)),
      (∃ pr ∈ results, pr.2.success = false) →
      ∃ msg, handleProcessFiles st results = { st with error := some msg } := by
  intro st results h
  obtain ⟨msg, hmsg⟩ := processFilesLoop_error_of_failure results [] "" h
  have hne : results.isEmpty = false := by
    obtain ⟨pr, hmem, _⟩ := h
    cases results
    · simp at hmem
    · rfl
  exact ⟨msg, by simp [handleProcessFiles, hne, hmsg]⟩

/-- C8 witness. A concrete two-file batch whose second file fails aborts
with only the error set. -/
theorem pdf_batch_abort_on_failure_witness :
    (∃ pr ∈ pdfResultsExample, pr.2.success = false)
    ∧ ∃ msg, handleProcessFiles pdfStateExample pdfResultsExample =
        { pdfStateExample with error := some msg } :=
  ⟨by decide, pdf_batch_abort_on_failure pdfStateExample pdfResultsExample (by decide)⟩

/-- Helper for C3: mapping the replace-at-id function over a store whose
first id match is r makes that first match the updated record u. -/
theorem find?_map_replace :
    ∀ (store : List Reinforcer) (id : String) (r u : Reinforcer),
      store.find? (fun x => x.id == id) = some r → u.id = r.id →
      (store.map fun x => if x.id == id then u else x).find? (fun x => x.id == id) =
        some u := by
  intro store id r u h hu
  induction store with
  | nil => simp at h
  | cons a as ih =>
    cases ha : a.id == id with
    | true =>
      simp only [List.find?_cons, ha] at h
      injection h with h'
      subst h'
      have hua : (u.id == id) = true := by rw [hu]; exact ha
      simp only [List.map_cons, ha, if_true, List.find?_cons, hua]
    | false =>
      simp only [List.find?_cons, ha] at h
      have hif : (if (a.id == id) = true then u else a) = a := by
        rw [ha]
        simp
      simp only [List.map_cons]
      rw [hif]
      simp only [List.find?_cons, ha]
      exact ih h

/-- Helper for C3: a reinforcer with a different id is still in the store
after a use action. -/
theorem handleUse_mem_of_ne :
    ∀ (store : List Reinforcer) (id now : String) (x : Reinforcer),
      x ∈ store → x.id ≠ id → x ∈ handleUse store id now := by
  intro store id now x hx hne
  unfold handleUse
  cases hfind : store.find? (fun y => y.id == id) with
  | none => exact hx
  | some r =>
    refine List.mem_map.mpr ⟨x, hx, ?_⟩
    have hb : (x.id == id) = false := beq_eq_false_iff_ne.mpr hne
    simp [hb]

/-- Helper for C3: a use action never changes the number of stored
reinforcers. -/
theorem handleUse_length :
    ∀ (store : List Reinforcer) (id now : String),
      (handleUse store id now).length = store.length := by
  intro store id now
  unfold handleUse
  cases store.find? (fun y => y.id == id) <;> simp

/-- Helper for C3: all usage counts stay nonnegative under any sequence of
page operations, from any store whose counts are nonnegative. -/
theorem usage_nonneg_invariant :
    ∀ (ops : List ReinforcerOp) (store : List Reinforcer),
      (∀ x ∈ store, 0 ≤ x.usageCount) →
      ∀ x ∈ applyReinforcerOps store ops, 0 ≤ x.usageCount := by
  intro ops
  induction ops with
  | nil =>
    intro store h x hx
    exact h x hx
  | cons op rest ih =>
    intro store h x hx
    have hstep : ∀ y ∈ applyReinforcerOp store op, 0 ≤ y.usageCount := by
      intro y hy
      cases op with
      | create form idc nowc =>
        simp only [applyReinforcerOp, reinforcersAdd] at hy
        split at hy
        · exact h y hy
        · rcases List.mem_append.mp hy with h1 | h1
          · exact h y h1
          · rw [List.mem_singleton.mp h1]
            simp [mkReinforcer]
      | use idu nowu =>
        simp only [applyReinforcerOp, handleUse] at hy
        cases hfind : store.find? (fun z => z.id == idu) with
        | none =>
          rw [hfind] at hy
          exact h y hy
        | some r =>
          rw [hfind] at hy
          obtain ⟨z, hz, hzy⟩ := List.mem_map.mp hy
          by_cases hzid : (z.id == idu) = true
          · rw [if_pos hzid] at hzy
            subst hzy
            have hr : 0 ≤ r.usageCount := h r (List.mem_of_find?_eq_some hfind)
            simp only []
            omega
          · rw [if_neg hzid] at hzy
            subst hzy
            exact h z hz
    have hx' : x ∈ applyReinforcerOps (applyReinforcerOp store op) rest := by
      simpa [applyReinforcerOps, List.foldl_cons] using hx
    exact ih (applyReinforcerOp store op) hstep x hx'

/-- C3. A single use action on the reinforcer stored under an id replaces
exactly that record, incrementing its usageCount by one and stamping
lastUsed, while every other reinforcer is untouched and the store size is
unchanged; every reinforcer is created with usageCount 0; and under any
sequence of create and use operations from the empty store, no usageCount
is ever negative. -/
theorem reinforcer_usage_count_spec
    (store : List Reinforcer) (id now : String) (r : Reinforcer)
    (h : store.find? (fun x => x.id == id) = some r) :
    ((handleUse store id now).find? (fun x => x.id == id) =
        some { r with lastUsed := some now, usageCount := r.usageCount + 1, updatedAt := now })
    ∧ (∀ x ∈ store, x.id ≠ id → x ∈ handleUse store id now)
    ∧ (handleUse store id now).length = store.length
    ∧ (∀ (form : ReinforcerFormData) (rid rnow : String),
        (mkReinforcer form rid rnow).usageCount = 0)
    ∧ (∀ ops : List ReinforcerOp, ∀ x ∈ applyReinforcerOps [] ops, 0 ≤ x.usageCount) := by
  refine ⟨?_, ?_, handleUse_length store id now, fun _ _ _ => rfl, ?_⟩
  · have hred : handleUse store id now =
        store.map fun x =>
          if x.id == id then
            { r with lastUsed := some now, usageCount := r.usageCount + 1, updatedAt := now }
          else x := by
      unfold handleUse
      rw [h]
    rw [hred]
    exact find?_map_replace store id r _ h rfl
  · intro x hx hne
    exact handleUse_mem_of_ne store id now x hx hne
  · intro ops x hx
    exact usage_nonneg_invariant ops [] (by simp) x hx

/-- C3 witness. The concrete one-reinforcer store: using it bumps its count
from 0 to 1. -/
theorem reinforcer_usage_count_spec_witness :
    ([reinforcerExample].find? (fun x => x.id == "reinforcer-1") = some reinforcerExample)
    ∧ (handleUse [reinforcerExample] "reinforcer-1" "t1").find?
        (fun x => x.id == "reinforcer-1") =
      some { reinforcerExample with
             lastUsed := some "t1"
             usageCount := reinforcerExample.usageCount + 1
             updatedAt := "t1" } :=
  ⟨by decide,
   (reinforcer_usage_count_spec [reinforcerExample] "reinforcer-1" "t1"
      reinforcerExample (by decide)).1⟩

/-- Helper for C7: the behaviors import loop is exactly a fold of upserts
over the store contents. -/
theorem importStoreRecords_behaviors_upsert :
    ∀ (items : List StoredRec) (db : IDB),
      importStoreRecords db STORES_BEHAVIORS items =
        .ok { db with behaviors := items.foldl upsertById db.behaviors } := by
  intro items
  induction items with
  | nil => intro db; rfl
  | cons item rest ih =>
    intro db
    by_cases hdup : db.behaviors.any (fun r => r.id == item.id)
    · have h1 : importRecord db STORES_BEHAVIORS item =
          .ok { db with behaviors :=
            db.behaviors.map fun r => if r.id == item.id then item else r } := by
        simp [importRecord, dbAdd, dbUpdate, IDB.objectStore?, STORES_BEHAVIORS,
          IDB.setStore, hdup]
      have h2 : upsertById db.behaviors item =
          db.behaviors.map fun r => if r.id == item.id then item else r := by
        rw [upsertById, if_pos hdup]
      simp only [importStoreRecords, h1, List.foldl_cons, h2]
      exact ih _
    · have h1 : importRecord db STORES_BEHAVIORS item =
          .ok { db with behaviors := db.behaviors ++ [item] } := by
        simp [importRecord, dbAdd, IDB.objectStore?, STORES_BEHAVIORS,
          IDB.setStore, hdup]
      have h2 : upsertById db.behaviors item = db.behaviors ++ [item] := by
        rw [upsertById, if_neg hdup]
      simp only [importStoreRecords, h1, List.foldl_cons, h2]
      exact ih _

/-- C7 amended. Behavior records are never updated in place by the form and
extraction flows (which only add) or the list page (which only deletes by
id) — but the backup import upserts: for each imported behavior,
importAllData's behaviors branch replaces the stored record when the id
already exists (add fails, the catch issues a put) and appends it otherwise,
which this theorem states as an exact fold of replace-or-append steps. -/
theorem import_behaviors_upsert_spec :
    ∀ (db : IDB) (items : List StoredRec),
      importBranch db STORES_BEHAVIORS (some items) =
        .ok { db with behaviors := items.foldl upsertById db.behaviors } :=
  fun db items => importStoreRecords_behaviors_upsert items db

/-- Helper for C5: one grouping step of the source, acting on averages,
matches the shadow step on totals (running average = total / count). -/
theorem addToWeekly_toAvg (gs : List SumGroup) (b : BehaviorEntry)
    (hpos : ∀ g ∈ gs, 0 < g.count) :
    addToWeeklyAverages (gs.map toAvg) b = (addToSumGroups gs b).map toAvg := by
  have hany : ((gs.map toAvg).any fun w => w.week == weekStartOf b) =
      (gs.any fun g => g.week == weekStartOf b) := by
    clear hpos
    induction gs with
    | nil => rfl
    | cons g rest ih =>
      simp only [List.map_cons, List.any_cons, ih]
      rfl
  simp only [addToWeeklyAverages, addToSumGroups]
  rw [hany]
  by_cases hc : (gs.any fun g => g.week == weekStartOf b) = true
  · rw [if_pos hc, if_pos hc, List.map_map, List.map_map]
    apply List.map_congr_left
    intro g hg
    simp only [Function.comp_apply, toAvg]
    by_cases hw : (g.week == weekStartOf b) = true
    · have hc0 : ((g.count : ℚ)) ≠ 0 := by
        have := hpos g hg
        exact_mod_cast (Nat.cast_pos.mpr this).ne'
      simp only [hw, if_true, WeeklyAverage.mk.injEq]
      refine ⟨by trivial, ?_, by trivial⟩
      rw [div_mul_cancel₀ _ hc0, Nat.cast_add, Nat.cast_one]
    · simp [hw]
  · rw [if_neg hc, if_neg hc, List.map_append]
    simp [toAvg]

/-- Helper for C5: the shadow step keeps every count positive. -/
theorem addToSumGroups_pos (gs : List SumGroup) (b : BehaviorEntry)
    (hpos : ∀ g ∈ gs, 0 < g.count) :
    ∀ g ∈ addToSumGroups gs b, 0 < g.count := by
  intro g hg
  unfold addToSumGroups at hg
  split at hg
  · obtain ⟨z, hz, hzg⟩ := List.mem_map.mp hg
    by_cases hw : (z.week == weekStartOf b) = true
    · rw [if_pos hw] at hzg
      rw [← hzg]
      exact Nat.succ_pos _
    · rw [if_neg hw] at hzg
      rw [← hzg]
      exact hpos z hz
  · rcases List.mem_append.mp hg with h1 | h1
    · exact hpos g h1
    · rw [List.mem_singleton.mp h1]
      exact Nat.one_pos

/-- Helper for C5: the whole grouping fold of the source computes the
image under toAvg of the shadow fold on totals. -/
theorem foldl_addToWeekly_toAvg :
    ∀ (l : List BehaviorEntry) (gs : List SumGroup), (∀ g ∈ gs, 0 < g.count) →
      l.foldl addToWeeklyAverages (gs.map toAvg) = (l.foldl addToSumGroups gs).map toAvg := by
  intro l
  induction l with
  | nil => intro gs _; rfl
  | cons b rest ih =>
    intro gs h
    simp only [List.foldl_cons]
    rw [addToWeekly_toAvg gs b h]
    exact ih _ (addToSumGroups_pos gs b h)

/-- Helper for C5: absorbing a cons absorbs its head first. -/
theorem absorbEntries_cons (b : BehaviorEntry) (rest : List BehaviorEntry) (g : SumGroup) :
    absorbEntries (b :: rest) g =
      absorbEntries rest
        (if (g.week == weekStartOf b) = true then
          ⟨g.week, g.total + (b.severity : ℚ), g.count + 1⟩
        else g) := by
  by_cases hw : (g.week == weekStartOf b) = true
  · have hgw : g.week = weekStartOf b := eq_of_beq hw
    rw [if_pos hw]
    unfold absorbEntries
    have hfb : (weekStartOf b == g.week) = true := by
      rw [hgw]
      exact beq_self_eq_true _
    have hfc := @List.filter_cons_of_pos _ (fun x => weekStartOf x == g.week) b rest hfb
    rw [hfc]
    simp only [List.map_cons, List.sum_cons, List.length_cons, SumGroup.mk.injEq]
    refine ⟨by trivial, by ring, by omega⟩
  · rw [if_neg hw]
    unfold absorbEntries
    have hfb : (weekStartOf b == g.week) = false := by
      apply beq_eq_false_iff_ne.mpr
      intro e
      exact hw (by rw [e]; exact beq_self_eq_true _)
    have hfc := @List.filter_cons_of_neg _ (fun x => weekStartOf x == g.week) b rest
      (by simp [hfb])
    rw [hfc]

/-- Helper for C5: the shadow grouping fold decomposes into the absorption
of the remaining entries into the accumulated groups, followed by the
declarative first-occurrence grouping of the entries with fresh keys. -/
theorem foldl_addToSumGroups_decomp :
    ∀ (l : List BehaviorEntry) (gs : List SumGroup),
      l.foldl addToSumGroups gs =
        gs.map (absorbEntries l) ++
          groupSumBy weekStartOf
            (l.filter fun x => decide (weekStartOf x ∉ gs.map fun g => g.week)) := by
  intro l
  induction l with
  | nil =>
    intro gs
    have habs : absorbEntries [] = fun g => g := by
      funext g
      simp [absorbEntries]
    simp [groupSumBy, habs]
  | cons b rest ih =>
    intro gs
    simp only [List.foldl_cons]
    by_cases hc : (gs.any fun g => g.week == weekStartOf b) = true
    · have hstep : addToSumGroups gs b = gs.map fun g =>
          if (g.week == weekStartOf b) = true then
            ⟨g.week, g.total + (b.severity : ℚ), g.count + 1⟩
          else g := by
        unfold addToSumGroups
        rw [if_pos hc]
      rw [hstep, ih]
      have hweeks : ((gs.map fun g =>
          if (g.week == weekStartOf b) = true then
            (⟨g.week, g.total + (b.severity : ℚ), g.count + 1⟩ : SumGroup)
          else g).map fun g => g.week) = gs.map fun g => g.week := by
        rw [List.map_map]
        apply List.map_congr_left
        intro g _
        simp only [Function.comp_apply]
        split <;> rfl
      rw [hweeks]
      have habs : ((gs.map fun g =>
          if (g.week == weekStartOf b) = true then
            (⟨g.week, g.total + (b.severity : ℚ), g.count + 1⟩ : SumGroup)
          else g).map (absorbEntries rest)) = gs.map (absorbEntries (b :: rest)) := by
        rw [List.map_map]
        apply List.map_congr_left
        intro g _
        exact (absorbEntries_cons b rest g).symm
      rw [habs]
      have hbmem : weekStartOf b ∈ gs.map fun g => g.week := by
        obtain ⟨g, hgmem, hgw⟩ := List.any_eq_true.mp hc
        exact List.mem_map.mpr ⟨g, hgmem, eq_of_beq hgw⟩
      have hfc := @List.filter_cons_of_neg _
        (fun x => decide (weekStartOf x ∉ gs.map fun g => g.week)) b rest
        (by simp [hbmem])
      rw [hfc]
    · have hstep : addToSumGroups gs b = gs ++ [⟨weekStartOf b, (b.severity : ℚ), 1⟩] := by
        unfold addToSumGroups
        rw [if_neg hc]
      rw [hstep, ih]
      have hbnot : weekStartOf b ∉ gs.map fun g => g.week := by
        intro hmem
        apply hc
        obtain ⟨g, hgmem, hgw⟩ := List.mem_map.mp hmem
        exact List.any_eq_true.mpr ⟨g, hgmem, by rw [hgw]; exact beq_self_eq_true _⟩
      have habs : gs.map (absorbEntries (b :: rest)) = gs.map (absorbEntries rest) := by
        apply List.map_congr_left
        intro g hg
        have hw' : ¬ (g.week == weekStartOf b) = true := fun hw =>
          hbnot (List.mem_map.mpr ⟨g, hg, eq_of_beq hw⟩)
        rw [absorbEntries_cons b rest g, if_neg hw']
      rw [habs]
      have hfc := @List.filter_cons_of_pos _
        (fun x => decide (weekStartOf x ∉ gs.map fun g => g.week)) b rest
        (by simp [hbnot])
      rw [hfc]
      rw [List.map_append]
      simp only [List.map_cons, List.map_nil]
      rw [List.append_assoc]
      congr 1
      simp only [groupSumBy]
      rw [List.singleton_append]
      have hfeq : ((rest.filter fun x => decide (weekStartOf x ∉ gs.map fun g => g.week)).filter
            fun x => weekStartOf x == weekStartOf b) =
          rest.filter fun x => weekStartOf x == weekStartOf b := by
        rw [List.filter_filter]
        apply List.filter_congr
        intro a _
        cases hx : weekStartOf a == weekStartOf b with
        | true =>
          have hab : weekStartOf a = weekStartOf b := eq_of_beq hx
          simp [hab, hbnot]
        | false => simp
      have htails : ((rest.filter fun x => decide (weekStartOf x ∉ gs.map fun g => g.week)).filter
            fun x => weekStartOf x != weekStartOf b) =
          rest.filter fun x =>
            decide (weekStartOf x ∉
              (gs ++ [(⟨weekStartOf b, (b.severity : ℚ), 1⟩ : SumGroup)]).map fun g => g.week) := by
        rw [List.filter_filter]
        apply List.filter_congr
        intro a _
        simp only [List.map_append, List.map_cons, List.map_nil, List.mem_append,
          List.mem_singleton, bne]
        cases hx : weekStartOf a == weekStartOf b with
        | true =>
          have hab : weekStartOf a = weekStartOf b := eq_of_beq hx
          simp [hab]
        | false =>
          have hab : weekStartOf a ≠ weekStartOf b := ne_of_beq_false hx
          simp [hab]
      rw [htails]
      have hg0 : absorbEntries rest ⟨weekStartOf b, (b.severity : ℚ), 1⟩ =
          ⟨weekStartOf b,
           (b.severity : ℚ) +
             ((rest.filter fun x => weekStartOf x == weekStartOf b).map
               fun x => (x.severity : ℚ)).sum,
           1 + (rest.filter fun x => weekStartOf x == weekStartOf b).length⟩ := rfl
      rw [hg0, hfeq]

/-- Helper for C5: the weeklyAverages array of detectMilestones is exactly
the per-key grouping with each group's average severity equal to the sum of
its entries' severities divided by their number. -/
theorem weeklyAveragesOf_eq_groupSum :
    ∀ l : List BehaviorEntry,
      weeklyAveragesOf l = (groupSumBy weekStartOf l).map toAvg := by
  intro l
  have h1 := foldl_addToWeekly_toAvg l [] (by simp)
  have h2 := foldl_addToSumGroups_decomp l []
  simp only [List.map_nil] at h1
  simp only [List.map_nil, List.nil_append] at h2
  have h3 : (l.filter fun x => decide (weekStartOf x ∉ ([] : List Nat))) = l := by
    simp
  rw [h3] at h2
  rw [weeklyAveragesOf, h1, h2]

/-- C5 amended. detectMilestones performs a daily-average comparison, not a
weekly one: below 7 entries it reports nothing; otherwise it groups the
sorted entries by calendar day (the code labels the groups weekly), each
group's average severity being exactly that day's severity sum over its
entry count, emits an improvement or regression milestone per consecutive
pair of day groups exactly when the earlier average exceeds (respectively
falls below) the later by more than 0.4 and the later day has at least 3
entries, and finally emits one frequency milestone when the last day's entry
count is below half the previous day's. -/
theorem detect_milestones_daily_spec :
    ∀ behaviors : List BehaviorEntry,
      detectMilestones behaviors =
        if behaviors.length < 7 then []
        else
          changeMilestones ((groupSumBy weekStartOf (sortByDate behaviors)).map toAvg) ++
            freqMilestones ((groupSumBy weekStartOf (sortByDate behaviors)).map toAvg) := by
  intro behaviors
  rw [detectMilestones]
  by_cases h : behaviors.length < 7
  · rw [if_pos h, if_pos h]
  · rw [if_neg h, if_neg h]
    show changeMilestones (weeklyAveragesOf (sortByDate behaviors)) ++
        freqMilestones (weeklyAveragesOf (sortByDate behaviors)) = _
    rw [weeklyAveragesOf_eq_groupSum]

end ABA
